import Mathlib

/-!
Shallow embedding of the `biggie` token-gating bot core
(`verification.py` and `verify_cron.py`) and proofs of the spec's claims.

Python dicts are modelled as association lists; machine integers and
Unix timestamps as `Nat`; floating-point balances as `ℚ` (the balance
arithmetic in the source is a single division `raw / 10 ** decimals`,
exact at every input the claims touch); fallible provider calls as an
explicit outcome type.  Each definition mirrors one Python function and
is named after it where Lean allows.
-/

namespace Biggie

/-! ## Association-list primitives (Python `dict` model)

`lookupKey` mirrors `d.get(k)`, `setKey` mirrors `d[k] = v` (replace the
existing binding, or append a new one). -/

def lookupKey {κ ν : Type} [DecidableEq κ] : List (κ × ν) → κ → Option ν
  | [], _ => none
  | (k, v) :: rest, key => if k = key then some v else lookupKey rest key

def setKey {κ ν : Type} [DecidableEq κ] : List (κ × ν) → κ → ν → List (κ × ν)
  | [], key, v => [(key, v)]
  | (k, w) :: rest, key, v =>
      if k = key then (k, v) :: rest else (k, w) :: setKey rest key v

theorem lookupKey_setKey_self {κ ν : Type} [DecidableEq κ]
    (l : List (κ × ν)) (k : κ) (v : ν) :
    lookupKey (setKey l k v) k = some v := by
  induction l with
  | nil => simp [setKey, lookupKey]
  | cons hd tl ih =>
      obtain ⟨k', w⟩ := hd
      by_cases h : k' = k
      · simp [setKey, lookupKey, h]
      · simp [setKey, lookupKey, h, ih]

theorem lookupKey_setKey_ne {κ ν : Type} [DecidableEq κ]
    (l : List (κ × ν)) (k k' : κ) (v : ν) (h : k' ≠ k) :
    lookupKey (setKey l k v) k' = lookupKey l k' := by
  induction l with
  | nil => simp [setKey, lookupKey, Ne.symm h]
  | cons hd tl ih =>
      obtain ⟨k₀, w⟩ := hd
      by_cases h0 : k₀ = k
      · subst h0
        have hk : ¬k₀ = k' := fun hc => h hc.symm
        simp [setKey, lookupKey, hk]
      · simp only [setKey, if_neg h0]
        by_cases h1 : k₀ = k'
        · simp [lookupKey, h1]
        · simp [lookupKey, h1, ih]

theorem lookupKey_eq_of_mem_nodup {κ ν : Type} [DecidableEq κ]
    (l : List (κ × ν)) (k : κ) (v : ν)
    (hmem : (k, v) ∈ l) (hnodup : (l.map Prod.fst).Nodup) :
    lookupKey l k = some v := by
  induction l with
  | nil => cases hmem
  | cons hd tl ih =>
      obtain ⟨k₀, w⟩ := hd
      simp only [List.map_cons, List.nodup_cons] at hnodup
      rcases List.mem_cons.1 hmem with heq | htl
      · cases heq
        simp [lookupKey]
      · have hk : k₀ ≠ k := by
          intro h
          subst h
          exact hnodup.1 (List.mem_map.2 ⟨(k₀, v), htl, rfl⟩)
        simp [lookupKey, hk, ih htl hnodup.2]

/-! ## Rejection tracking (`verification.py`, 3-strike system)

`RejRecord` mirrors the JSON object that `track_rejection` creates for a
group inside the `rejected_groups.json` document. -/

structure RejRecord where
  rejection_count : Nat
  group_name : String
  last_admin_id : Option Nat
  last_admin_name : String
  first_rejection : Nat
  last_rejection : Nat
  blocked : Bool
deriving Repr, DecidableEq

abbrev RejDoc := List (String × RejRecord)

/-- Optional metadata arguments of `track_rejection`
(`group_name`, `admin_id`, `admin_name`). -/
structure TrackArgs where
  group_name : Option String
  admin_id : Option Nat
  admin_name : Option String
deriving Repr, DecidableEq

/-- Python truthiness of an optional integer (`None` and `0` are falsy). -/
def optNatTruthy : Option Nat → Bool
  | none => false
  | some n => n != 0

/-- Python truthiness of an optional string (`None` and `""` are falsy). -/
def optStrTruthy : Option String → Bool
  | none => false
  | some s => s != ""

/-- The fresh record created when a group has no entry yet
(`rejected_groups[group_id] = {...}` in `track_rejection`). -/
def freshRecord (group_id : String) (args : TrackArgs) (now : Nat) : RejRecord :=
  { rejection_count := 0
    group_name :=
      if optStrTruthy args.group_name then args.group_name.getD ""
      else "Group " ++ group_id
    last_admin_id := args.admin_id
    last_admin_name :=
      if optStrTruthy args.admin_name then args.admin_name.getD "" else "Unknown"
    first_rejection := now
    last_rejection := now
    blocked := false }

/-- The `if group_id not in rejected_groups:` creation step of
`track_rejection`. -/
def ensureRecord (doc : RejDoc) (group_id : String) (args : TrackArgs)
    (now : Nat) : RejDoc :=
  match lookupKey doc group_id with
  | some _ => doc
  | none => setKey doc group_id (freshRecord group_id args now)

/-- The mutation `track_rejection` applies to the (now existing) record:
increment the count, stamp `last_rejection`, update provided metadata,
then set `blocked` once the count reaches 3. -/
def bumpRecord (args : TrackArgs) (now : Nat) (r : RejRecord) : RejRecord :=
  let r := { r with rejection_count := r.rejection_count + 1, last_rejection := now }
  let r := if optNatTruthy args.admin_id then { r with last_admin_id := args.admin_id } else r
  let r :=
    if optStrTruthy args.admin_name then
      { r with last_admin_name := args.admin_name.getD r.last_admin_name }
    else r
  let r :=
    if optStrTruthy args.group_name then
      { r with group_name := args.group_name.getD r.group_name }
    else r
  if 3 ≤ r.rejection_count then { r with blocked := true } else r

/-- Embedding of `track_rejection(group_id, group_name, admin_id, admin_name)` from
`verification.py`: returns the updated document (the in-memory dict that
is then persisted) together with the returned `blocked` flag. -/
def track_rejection (doc : RejDoc) (group_id : String) (args : TrackArgs)
    (now : Nat) : RejDoc × Bool :=
  let doc := ensureRecord doc group_id args now
  let r := bumpRecord args now
    ((lookupKey doc group_id).getD (freshRecord group_id args now))
  (setKey doc group_id r, r.blocked)

/-- Embedding of `is_group_blocked(group_id)`: `group_data.get("blocked", False)`. -/
def is_group_blocked (doc : RejDoc) (group_id : String) : Bool :=
  match lookupKey doc group_id with
  | some r => r.blocked
  | none => false

/-- Embedding of `get_rejection_count(group_id)`: `group_data.get("rejection_count", 0)`. -/
def get_rejection_count (doc : RejDoc) (group_id : String) : Nat :=
  match lookupKey doc group_id with
  | some r => r.rejection_count
  | none => 0

/-- Embedding of `reset_rejection_count(group_id)`: zero the count and clear `blocked`
when a record exists (returning the save result, modelled as a
successful save), report success otherwise. -/
def reset_rejection_count (doc : RejDoc) (group_id : String) : RejDoc × Bool :=
  match lookupKey doc group_id with
  | some r =>
      (setKey doc group_id { r with rejection_count := 0, blocked := false }, true)
  | none => (doc, true)

/-- Embedding of `get_blocked_groups()`: the entries whose `blocked` field is true. -/
def get_blocked_groups (doc : RejDoc) : RejDoc :=
  doc.filter (fun p => p.2.blocked)

theorem bumpRecord_rejection_count (args : TrackArgs) (now : Nat) (r : RejRecord) :
    (bumpRecord args now r).rejection_count = r.rejection_count + 1 := by
  simp only [bumpRecord]
  repeat' split
  all_goals rfl

theorem bumpRecord_blocked (args : TrackArgs) (now : Nat) (r : RejRecord) :
    (bumpRecord args now r).blocked =
      (if 3 ≤ r.rejection_count + 1 then true else r.blocked) := by
  simp only [bumpRecord]
  repeat' split
  all_goals rfl

theorem ensureRecord_lookup_self (doc : RejDoc) (g : String) (args : TrackArgs)
    (now : Nat) :
    lookupKey (ensureRecord doc g args now) g =
      some ((lookupKey doc g).getD (freshRecord g args now)) := by
  unfold ensureRecord
  cases h : lookupKey doc g with
  | some r => simp [h]
  | none => simp [lookupKey_setKey_self]

theorem ensureRecord_lookup_ne (doc : RejDoc) (g g' : String) (args : TrackArgs)
    (now : Nat) (h : g' ≠ g) :
    lookupKey (ensureRecord doc g args now) g' = lookupKey doc g' := by
  unfold ensureRecord
  cases hl : lookupKey doc g with
  | some r => rfl
  | none => exact lookupKey_setKey_ne doc g g' _ h

theorem track_lookup_self (doc : RejDoc) (g : String) (args : TrackArgs) (now : Nat) :
    lookupKey (track_rejection doc g args now).1 g =
      some (bumpRecord args now ((lookupKey doc g).getD (freshRecord g args now))) := by
  unfold track_rejection
  simp only [lookupKey_setKey_self, ensureRecord_lookup_self, Option.getD_some]

theorem track_lookup_ne (doc : RejDoc) (g g' : String) (args : TrackArgs)
    (now : Nat) (h : g' ≠ g) :
    lookupKey (track_rejection doc g args now).1 g' = lookupKey doc g' := by
  unfold track_rejection
  simp only []
  rw [lookupKey_setKey_ne _ _ _ _ h, ensureRecord_lookup_ne _ _ _ _ _ h]

theorem track_count (doc : RejDoc) (g : String) (args : TrackArgs) (now : Nat) :
    get_rejection_count (track_rejection doc g args now).1 g =
      get_rejection_count doc g + 1 := by
  unfold get_rejection_count
  rw [track_lookup_self]
  cases h : lookupKey doc g with
  | some r => simp [h, bumpRecord_rejection_count]
  | none => simp [h, bumpRecord_rejection_count, freshRecord]

theorem track_blocked_self (doc : RejDoc) (g : String) (args : TrackArgs) (now : Nat) :
    is_group_blocked (track_rejection doc g args now).1 g =
      (is_group_blocked doc g || decide (3 ≤ get_rejection_count doc g + 1)) := by
  unfold is_group_blocked get_rejection_count
  rw [track_lookup_self]
  cases h : lookupKey doc g with
  | some r =>
      simp only [h, Option.getD_some, bumpRecord_blocked]
      by_cases h3 : 3 ≤ r.rejection_count + 1 <;> simp [h3]
  | none =>
      simp only [h, Option.getD_none, bumpRecord_blocked, freshRecord]
      by_cases h3 : 3 ≤ 0 + 1 <;> simp_all

theorem track_ret (doc : RejDoc) (g : String) (args : TrackArgs) (now : Nat) :
    (track_rejection doc g args now).2 =
      (is_group_blocked doc g || decide (3 ≤ get_rejection_count doc g + 1)) := by
  unfold track_rejection is_group_blocked get_rejection_count
  simp only [ensureRecord_lookup_self]
  cases h : lookupKey doc g with
  | some r =>
      simp only [h, Option.getD_some, bumpRecord_blocked]
      by_cases h3 : 3 ≤ r.rejection_count + 1 <;> simp [h3]
  | none =>
      simp only [h, Option.getD_none, bumpRecord_blocked, freshRecord]
      by_cases h3 : 3 ≤ 0 + 1 <;> simp_all

/-! ## Iterated rejections (claim C1) -/

/-- Run a sequence of `track_rejection` calls against one group,
collecting each call's return value in order. -/
def runTracks (g : String) : RejDoc → List (TrackArgs × Nat) → RejDoc × List Bool
  | doc, [] => (doc, [])
  | doc, p :: ps =>
      let r := track_rejection doc g p.1 p.2
      let rest := runTracks g r.1 ps
      (rest.1, r.2 :: rest.2)

theorem blocked_or_absorb (c : Nat) :
    (decide (3 ≤ c) || decide (3 ≤ c + 1)) = decide (3 ≤ c + 1) := by
  by_cases h : 3 ≤ c <;> by_cases h' : 3 ≤ c + 1 <;> simp [h, h']
  omega

theorem runTracks_spec (g : String) (ps : List (TrackArgs × Nat)) :
    ∀ doc : RejDoc,
      is_group_blocked doc g = decide (3 ≤ get_rejection_count doc g) →
      get_rejection_count (runTracks g doc ps).1 g =
        get_rejection_count doc g + ps.length ∧
      is_group_blocked (runTracks g doc ps).1 g =
        decide (3 ≤ get_rejection_count doc g + ps.length) ∧
      (runTracks g doc ps).2 =
        (List.range ps.length).map
          (fun i => decide (3 ≤ get_rejection_count doc g + i + 1)) := by
  induction ps with
  | nil =>
      intro doc hinv
      simpa [runTracks] using hinv
  | cons p ps ih =>
      intro doc hinv
      simp only [runTracks, List.length_cons]
      have hc : get_rejection_count (track_rejection doc g p.1 p.2).1 g =
          get_rejection_count doc g + 1 := track_count doc g p.1 p.2
      have hb : is_group_blocked (track_rejection doc g p.1 p.2).1 g =
          decide (3 ≤ get_rejection_count doc g + 1) := by
        rw [track_blocked_self, hinv, blocked_or_absorb]
      have hret : (track_rejection doc g p.1 p.2).2 =
          decide (3 ≤ get_rejection_count doc g + 1) := by
        rw [track_ret, hinv, blocked_or_absorb]
      have hinv' : is_group_blocked (track_rejection doc g p.1 p.2).1 g =
          decide (3 ≤ get_rejection_count (track_rejection doc g p.1 p.2).1 g) := by
        rw [hb, hc]
      obtain ⟨ih1, ih2, ih3⟩ := ih (track_rejection doc g p.1 p.2).1 hinv'
      rw [hc] at ih1 ih2 ih3
      refine ⟨?_, ?_, ?_⟩
      · rw [ih1]; omega
      · rw [ih2]
        exact decide_eq_decide.2 (by omega)
      · rw [ih3, hret, List.range_succ_eq_map, List.map_cons, List.map_map]
        have hhead : decide (3 ≤ get_rejection_count doc g + 1) =
            decide (3 ≤ get_rejection_count doc g + 0 + 1) :=
          decide_eq_decide.2 (by omega)
        have htail : (fun i => decide (3 ≤ get_rejection_count doc g + 1 + i + 1)) =
            (fun i => decide (3 ≤ get_rejection_count doc g + i + 1)) ∘ Nat.succ := by
          funext i
          exact decide_eq_decide.2 (by omega)
        rw [hhead, htail]

/-- Claim C1. Starting from a fresh group (no record in the rejected-groups
document), after `n < 3` calls to `track_rejection` the count is `n` and
the group is not blocked; the `k`-th call returns `true` exactly when
`k ≥ 3` (so calls 1 and 2 return `false` and call 3 returns `true`), and
after the 3rd call `is_group_blocked` is `true`. -/
theorem three_strike_fresh_group (g : String) (doc : RejDoc)
    (hfresh : lookupKey doc g = none) (ps : List (TrackArgs × Nat)) :
    (ps.length < 3 →
      get_rejection_count (runTracks g doc ps).1 g = ps.length ∧
      is_group_blocked (runTracks g doc ps).1 g = false) ∧
    (runTracks g doc ps).2 =
      (List.range ps.length).map (fun i => decide (3 ≤ i + 1)) ∧
    (ps.length = 3 → is_group_blocked (runTracks g doc ps).1 g = true) := by
  have hc0 : get_rejection_count doc g = 0 := by
    unfold get_rejection_count; rw [hfresh]
  have hb0 : is_group_blocked doc g = decide (3 ≤ get_rejection_count doc g) := by
    unfold is_group_blocked
    rw [hfresh, hc0]
    decide
  obtain ⟨h1, h2, h3⟩ := runTracks_spec g ps doc hb0
  rw [hc0] at h1 h2 h3
  refine ⟨fun hn => ⟨by simpa using h1, ?_⟩, ?_, fun hlen => ?_⟩
  · rw [h2]
    exact decide_eq_false (by omega)
  · rw [h3]
    have : (fun i => decide (3 ≤ 0 + i + 1)) = (fun i => decide (3 ≤ i + 1)) := by
      funext i
      exact decide_eq_decide.2 (by omega)
    rw [this]
  · rw [h2, hlen]
    decide

/-- Witness for C1: three concrete rejections of a fresh group return
`[false, false, true]` and leave the group blocked. -/
theorem three_strike_fresh_group_witness :
    lookupKey ([] : RejDoc) "g" = none ∧
    (runTracks "g" []
        (List.replicate 3
          (({ group_name := none, admin_id := none, admin_name := none } : TrackArgs), 0))).2 =
      (List.range 3).map (fun i => decide (3 ≤ i + 1)) ∧
    is_group_blocked
      (runTracks "g" []
        (List.replicate 3
          (({ group_name := none, admin_id := none, admin_name := none } : TrackArgs), 0))).1
      "g" = true := by
  refine ⟨rfl, ?_, ?_⟩
  · exact (three_strike_fresh_group "g" [] rfl _).2.1
  · exact (three_strike_fresh_group "g" [] rfl _).2.2 rfl

/-! ## Mutation sequences and the blocked/count invariant (claim C2) -/

/-- One mutating operation of the rejection tracker. -/
inductive RejOp where
  | track (group_id : String) (args : TrackArgs) (now : Nat)
  | reset (group_id : String)
deriving Repr

/-- Apply one tracker mutation to the rejected-groups document. -/
def applyRejOp (doc : RejDoc) : RejOp → RejDoc
  | RejOp.track g args now => (track_rejection doc g args now).1
  | RejOp.reset g => (reset_rejection_count doc g).1

/-- Run a sequence of tracker mutations starting from the empty document. -/
def runRejOps (ops : List RejOp) : RejDoc :=
  ops.foldl applyRejOp []

/-- The record-level invariant: `blocked` equals `rejection_count ≥ 3`. -/
def rejInvariant (doc : RejDoc) : Prop :=
  ∀ g r, lookupKey doc g = some r → r.blocked = decide (3 ≤ r.rejection_count)

theorem reset_lookup_self (doc : RejDoc) (g : String) :
    lookupKey (reset_rejection_count doc g).1 g =
      (lookupKey doc g).map
        (fun r => { r with rejection_count := 0, blocked := false }) := by
  unfold reset_rejection_count
  cases h : lookupKey doc g with
  | some r => simp [lookupKey_setKey_self]
  | none => simp [h]

theorem reset_lookup_ne (doc : RejDoc) (g g' : String) (h : g' ≠ g) :
    lookupKey (reset_rejection_count doc g).1 g' = lookupKey doc g' := by
  unfold reset_rejection_count
  cases hl : lookupKey doc g with
  | some r => simp [lookupKey_setKey_ne doc g g' _ h]
  | none => rfl

theorem applyRejOp_invariant (doc : RejDoc) (op : RejOp) (h : rejInvariant doc) :
    rejInvariant (applyRejOp doc op) := by
  cases op with
  | track g args now =>
      intro g' r' hl
      simp only [applyRejOp] at hl
      by_cases hg : g' = g
      · subst hg
        rw [track_lookup_self] at hl
        have hro : ((lookupKey doc g').getD (freshRecord g' args now)).blocked =
            decide (3 ≤ ((lookupKey doc g').getD (freshRecord g' args now)).rejection_count) := by
          cases hlk : lookupKey doc g' with
          | some r₀ => simpa using h g' r₀ hlk
          | none => simp [freshRecord]
        cases hl
        rw [bumpRecord_blocked, bumpRecord_rejection_count]
        by_cases h3 : 3 ≤ ((lookupKey doc g').getD (freshRecord g' args now)).rejection_count + 1
        · simp [h3]
        · rw [if_neg h3, hro]
          rw [decide_eq_false (by omega), decide_eq_false h3]
      · rw [track_lookup_ne doc g g' args now hg] at hl
        exact h g' r' hl
  | reset g =>
      intro g' r' hl
      simp only [applyRejOp] at hl
      by_cases hg : g' = g
      · subst hg
        rw [reset_lookup_self] at hl
        cases hlk : lookupKey doc g' with
        | some r₀ =>
            rw [hlk] at hl
            simp only [Option.map_some'] at hl
            cases hl
            simp
        | none => rw [hlk] at hl; simp at hl
      · rw [reset_lookup_ne doc g g' hg] at hl
        exact h g' r' hl

theorem foldl_rejInvariant (ops : List RejOp) :
    ∀ doc : RejDoc, rejInvariant doc → rejInvariant (ops.foldl applyRejOp doc) := by
  induction ops with
  | nil => intro doc h; simpa using h
  | cons op ops ih => intro doc h; exact ih _ (applyRejOp_invariant doc op h)

/-- Claim C2. In every rejected-groups document reachable by any sequence
of `track_rejection` / `reset_rejection_count` mutations from the empty
document, every group's record satisfies
`blocked = (rejection_count ≥ 3)`. -/
theorem rejection_blocked_invariant (ops : List RejOp) (g : String) (r : RejRecord)
    (h : lookupKey (runRejOps ops) g = some r) :
    r.blocked = decide (3 ≤ r.rejection_count) :=
  foldl_rejInvariant ops [] (fun _ _ h' => by simp [lookupKey] at h') g r h

/-- Witness for C2 at the document produced by one concrete rejection. -/
theorem rejection_blocked_invariant_witness :
    ({ rejection_count := 1, group_name := "Group g", last_admin_id := none,
       last_admin_name := "Unknown", first_rejection := 7, last_rejection := 7,
       blocked := false } : RejRecord).blocked = decide (3 ≤ (1 : Nat)) :=
  rejection_blocked_invariant
    [RejOp.track "g" { group_name := none, admin_id := none, admin_name := none } 7]
    "g" _ (by decide)

/-! ## Balance verification (`verification.py`, fallback pipeline)

`verify_user_balance` is embedded as a function of the group
configuration and an explicit provider environment: the configured
credentials plus the outcome each provider call would produce (an
exception/timeout, or a returned value). -/

/-- One group's configuration (`config.json` entry). -/
structure GroupConfig where
  chain_id : String
  token : String
  min_balance : ℚ
  verifier : String
deriving Repr, DecidableEq

/-- Outcome of one external provider call: an exception (or timeout), or
a returned value. -/
inductive ProviderResult (α : Type) where
  | failure
  | success (val : α)
deriving Repr, DecidableEq

/-- The provider state one `verify_user_balance` call observes. -/
structure BalanceEnv where
  moralis_api_key : Option String
  etherscan_api_key : Option String
  moralis_result : ProviderResult ℚ
  etherscan_result : ProviderResult Nat
  decimals_result : ProviderResult Nat
deriving Repr, DecidableEq

/-- Embedding of `CHAIN_MAP` from `verification.py`. -/
def CHAIN_MAP : String → Option String := fun c =>
  if c = "eth" ∨ c = "mainnet" ∨ c = "0x1" then some "eth"
  else if c = "bsc" ∨ c = "binance" ∨ c = "0x38" then some "bsc"
  else if c = "polygon" ∨ c = "matic" ∨ c = "0x89" then some "polygon"
  else none

/-- Embedding of `CHAIN_MAP.get(chain_id, chain_id)`: canonicalize a chain alias;
unknown identifiers pass through unchanged. -/
def resolve_chain (chain_id : String) : String :=
  (CHAIN_MAP chain_id).getD chain_id

/-- Embedding of `get_token_decimals`: the Moralis metadata decimals, defaulting to
18 on any failure. -/
def get_token_decimals (env : BalanceEnv) : Nat :=
  match env.decimals_result with
  | ProviderResult.failure => 18
  | ProviderResult.success d => d

/-- The Moralis request issued by `get_token_decimals`
(`{"chain": moralis_chain, "addresses": [token_address]}` with
`moralis_chain = CHAIN_MAP.get(chain_id, chain_id)`). -/
structure DecimalsRequest where
  chain : String
  token : String
deriving Repr, DecidableEq

/-- The request-construction part of `get_token_decimals`. -/
def decimals_request (token_address chain_id : String) : DecimalsRequest :=
  { chain := resolve_chain chain_id, token := token_address }

/-- Embedding of `get_token_balance_moralis`: the already decimal-scaled balance, or
`0.0` on exception / token not present in the response. -/
def get_token_balance_moralis (env : BalanceEnv) : ℚ :=
  match env.moralis_result with
  | ProviderResult.failure => 0
  | ProviderResult.success b => b

/-- The Etherscan V2 REST query built by `get_token_balance_etherscan`:
the URL hard-codes `chainid=1` and mentions no other chain. -/
structure EtherscanRequest where
  chainid : Nat
  contractaddress : String
  address : String
deriving Repr, DecidableEq

/-- The request-construction part of `get_token_balance_etherscan`
(`wallet` and `token` are its only inputs). -/
def etherscan_request (wallet token : String) : EtherscanRequest :=
  { chainid := 1, contractaddress := token, address := wallet }

/-- Embedding of `get_token_balance_etherscan`: the raw integer balance, or `0.0`
when the API key is missing or the request fails. -/
def get_token_balance_etherscan (env : BalanceEnv) : ℚ :=
  if env.etherscan_api_key = none then 0
  else
    match env.etherscan_result with
    | ProviderResult.failure => 0
    | ProviderResult.success raw => (raw : ℚ)

/-- The credential guard `MORALIS_API_KEY and len(MORALIS_API_KEY) > 50`. -/
def moralis_key_valid (env : BalanceEnv) : Bool :=
  match env.moralis_api_key with
  | none => false
  | some k => decide (50 < k.length)

/-- The `balance` variable of `verify_user_balance` after the primary
(Moralis) stage. -/
def primary_balance (env : BalanceEnv) : ℚ :=
  if moralis_key_valid env then get_token_balance_moralis env else 0

/-- The guard `if balance <= 0:` that sends `verify_user_balance` into
the Etherscan fallback. -/
def uses_fallback (env : BalanceEnv) : Bool :=
  decide (primary_balance env ≤ 0)

/-- Embedding of `verify_user_balance(group_config, user_address)`: primary provider
first, Etherscan raw balance divided by `10 ** decimals` as fallback,
then the inclusive comparison `balance >= min_balance`. -/
def verify_user_balance (env : BalanceEnv) (cfg : GroupConfig) : Bool :=
  let balance := primary_balance env
  let balance :=
    if balance ≤ 0 then
      get_token_balance_etherscan env / (10 : ℚ) ^ get_token_decimals env
    else balance
  decide (cfg.min_balance ≤ balance)

/-- The provider requests issued when the fallback branch of
`verify_user_balance` runs (lines 219–221 of `verification.py`): the
Etherscan balance query built from wallet and token only, and the
decimals lookup resolved for the group's configured chain. -/
def verify_fallback_request (env : BalanceEnv) (cfg : GroupConfig)
    (user_address : String) : Option (EtherscanRequest × DecimalsRequest) :=
  if uses_fallback env then
    some (etherscan_request user_address cfg.token,
          decimals_request cfg.token cfg.chain_id)
  else none

/-- Primary-provider failure in the claim's sense: key missing or
syntactically invalid, the call raised or timed out, or it returned a
zero (failed) result. -/
def primary_failed (env : BalanceEnv) : Bool :=
  !moralis_key_valid env ||
    (match env.moralis_result with
     | ProviderResult.failure => true
     | ProviderResult.success b => decide (b = 0))

/-- Secondary-provider failure: key missing, the call raised or timed
out, or it returned a zero raw balance. -/
def secondary_failed (env : BalanceEnv) : Bool :=
  decide (env.etherscan_api_key = none) ||
    (match env.etherscan_result with
     | ProviderResult.failure => true
     | ProviderResult.success raw => decide (raw = 0))

theorem primary_balance_of_failed (env : BalanceEnv)
    (h : primary_failed env = true) : primary_balance env = 0 := by
  unfold primary_failed at h
  unfold primary_balance
  by_cases hk : moralis_key_valid env = true
  · rw [hk] at h
    simp only [Bool.not_true, Bool.false_or] at h
    rw [if_pos hk]
    unfold get_token_balance_moralis
    cases hm : env.moralis_result with
    | failure => rfl
    | success b =>
        rw [hm] at h
        exact of_decide_eq_true h
  · rw [if_neg hk]

theorem etherscan_balance_of_failed (env : BalanceEnv)
    (h : secondary_failed env = true) : get_token_balance_etherscan env = 0 := by
  unfold secondary_failed at h
  unfold get_token_balance_etherscan
  by_cases hkey : env.etherscan_api_key = none
  · rw [if_pos hkey]
  · rw [if_neg hkey]
    rw [decide_eq_false hkey, Bool.false_or] at h
    cases hm : env.etherscan_result with
    | failure => rfl
    | success raw =>
        rw [hm] at h
        have : raw = 0 := of_decide_eq_true h
        rw [this]
        norm_num

/-- Claim C4 (amended). `verify_user_balance` is a total boolean function
— every provider failure is absorbed — and whenever both the primary
and the secondary provider fail and the group's threshold is positive,
it returns `false` (fail-closed).  With `min_balance = 0` a total
provider outage instead yields `true` (see the counterexample). -/
theorem fail_closed_pos_threshold (env : BalanceEnv) (cfg : GroupConfig)
    (hmin : 0 < cfg.min_balance) (hp : primary_failed env = true)
    (hs : secondary_failed env = true) :
    verify_user_balance env cfg = false := by
  simp only [verify_user_balance]
  rw [primary_balance_of_failed env hp, if_pos le_rfl,
    etherscan_balance_of_failed env hs, zero_div]
  exact decide_eq_false (not_le.2 hmin)

/-- A provider environment in which every provider call fails. -/
def envBothFail : BalanceEnv :=
  { moralis_api_key := none, etherscan_api_key := none,
    moralis_result := ProviderResult.failure,
    etherscan_result := ProviderResult.failure,
    decimals_result := ProviderResult.failure }

/-- A group configuration with a zero threshold (allowed: the data-model
invariant is only `min_balance >= 0`). -/
def cfgZero : GroupConfig :=
  { chain_id := "eth", token := "0xtoken", min_balance := 0, verifier := "0xv" }

/-- A group configuration with threshold 1000. -/
def cfgThousand : GroupConfig :=
  { chain_id := "eth", token := "0xtoken", min_balance := 1000, verifier := "0xv" }

/-- Claim C4 counterexample. With `min_balance = 0` and both providers
failing, `verify_user_balance` returns `true`, not `false`: the final
comparison is `0.0 >= 0`. -/
theorem fail_closed_zero_threshold_cex :
    primary_failed envBothFail = true ∧ secondary_failed envBothFail = true ∧
    (0 : ℚ) ≤ cfgZero.min_balance ∧ verify_user_balance envBothFail cfgZero = true := by
  refine ⟨by decide, by decide, le_refl 0, ?_⟩
  simp only [verify_user_balance]
  rw [primary_balance_of_failed envBothFail (by decide), if_pos le_rfl,
    etherscan_balance_of_failed envBothFail (by decide), zero_div]
  norm_num [cfgZero]

/-- Witness for the amended C4 at a concrete positive threshold. -/
theorem fail_closed_pos_threshold_witness :
    (0 : ℚ) < cfgThousand.min_balance ∧ primary_failed envBothFail = true ∧
    secondary_failed envBothFail = true ∧
    verify_user_balance envBothFail cfgThousand = false :=
  ⟨by norm_num [cfgThousand], by decide, by decide,
    fail_closed_pos_threshold envBothFail cfgThousand (by norm_num [cfgThousand])
      (by decide) (by decide)⟩

/-- Claim C6. A positive, non-exception primary (Moralis) result is
authoritative: the fallback does not run and compliance is that balance
compared against `min_balance`; a zero primary result, a raised call,
or a missing/invalid key instead sends the verifier into the Etherscan
fallback. -/
theorem primary_result_authoritative (env : BalanceEnv) (cfg : GroupConfig) :
    (∀ b : ℚ, moralis_key_valid env = true →
      env.moralis_result = ProviderResult.success b → 0 < b →
      uses_fallback env = false ∧
      verify_user_balance env cfg = decide (cfg.min_balance ≤ b)) ∧
    (primary_failed env = true → uses_fallback env = true) := by
  constructor
  · intro b hk hm hb
    have hpb : primary_balance env = b := by
      unfold primary_balance get_token_balance_moralis
      rw [if_pos hk, hm]
    refine ⟨?_, ?_⟩
    · unfold uses_fallback
      rw [hpb]
      exact decide_eq_false (not_le.2 hb)
    · simp only [verify_user_balance]
      rw [hpb, if_neg (not_le.2 hb)]
  · intro hp
    unfold uses_fallback
    rw [primary_balance_of_failed env hp]
    exact decide_eq_true le_rfl

/-- Claim C7. On the fallback path, the raw Etherscan integer is divided
by `10 ^ decimals`, decimals are separately resolved and default to 18
when undiscoverable, and compliance is the inclusive comparison
`min_balance ≤ balance`. -/
theorem fallback_scaling (env : BalanceEnv) (cfg : GroupConfig)
    (h : uses_fallback env = true) :
    verify_user_balance env cfg =
      decide (cfg.min_balance ≤
        get_token_balance_etherscan env / (10 : ℚ) ^ get_token_decimals env) ∧
    (env.decimals_result = ProviderResult.failure → get_token_decimals env = 18) ∧
    (∀ raw d : Nat, env.etherscan_result = ProviderResult.success raw →
      env.etherscan_api_key ≠ none → env.decimals_result = ProviderResult.success d →
      verify_user_balance env cfg =
        decide (cfg.min_balance ≤ (raw : ℚ) / (10 : ℚ) ^ d)) := by
  have hle : primary_balance env ≤ 0 := of_decide_eq_true h
  have hmain : verify_user_balance env cfg =
      decide (cfg.min_balance ≤
        get_token_balance_etherscan env / (10 : ℚ) ^ get_token_decimals env) := by
    simp only [verify_user_balance]
    rw [if_pos hle]
  refine ⟨hmain, ?_, ?_⟩
  · intro hd
    unfold get_token_decimals
    rw [hd]
  · intro raw d hraw hkey hd
    rw [hmain]
    have h1 : get_token_balance_etherscan env = (raw : ℚ) := by
      unfold get_token_balance_etherscan
      rw [if_neg hkey, hraw]
    have h2 : get_token_decimals env = d := by
      unfold get_token_decimals
      rw [hd]
    rw [h1, h2]

/-- Claim C10. Whenever the fallback path runs, the Etherscan balance
query is pinned to `chainid=1` for every group configuration — the
group's configured `chain_id` does not enter it — while the decimals
lookup is resolved for the group's configured chain. -/
theorem fallback_chain_pinned (env : BalanceEnv) (cfg : GroupConfig)
    (user_address : String) (h : uses_fallback env = true) :
    (verify_fallback_request env cfg user_address).map (fun p => p.1.chainid) =
      some 1 ∧
    (verify_fallback_request env cfg user_address).map (fun p => p.2.chain) =
      some (resolve_chain cfg.chain_id) := by
  unfold verify_fallback_request
  rw [if_pos h]
  exact ⟨rfl, rfl⟩

/-- An environment that forces the Etherscan fallback and yields raw
balance 150 with 2 decimals. -/
def envFallback150 : BalanceEnv :=
  { moralis_api_key := none, etherscan_api_key := some "k",
    moralis_result := ProviderResult.failure,
    etherscan_result := ProviderResult.success 150,
    decimals_result := ProviderResult.success 2 }

/-- A group configuration with threshold 1.0. -/
def cfgOne : GroupConfig :=
  { chain_id := "eth", token := "0xtoken", min_balance := 1, verifier := "0xv" }

/-- An environment whose primary (Moralis) call succeeds with balance 5
under a syntactically valid (longer than 50 characters) key. -/
def envPrimaryOk : BalanceEnv :=
  { moralis_api_key :=
      some "aaaaaaaaaaaaaaaaaaaaaaaaaaaaaaaaaaaaaaaaaaaaaaaaaaaaaaaaaaaa",
    etherscan_api_key := none,
    moralis_result := ProviderResult.success 5,
    etherscan_result := ProviderResult.failure,
    decimals_result := ProviderResult.failure }

/-- Witness for C6 at a concrete positive primary result. -/
theorem primary_result_authoritative_witness :
    uses_fallback envPrimaryOk = false ∧
    verify_user_balance envPrimaryOk cfgThousand =
      decide (cfgThousand.min_balance ≤ (5 : ℚ)) :=
  (primary_result_authoritative envPrimaryOk cfgThousand).1 5 (by decide) rfl
    (by norm_num)

/-- Witness for C7: raw 150 with 2 decimals against threshold 1.0 is
compliant (`150 / 100 = 1.5 ≥ 1`). -/
theorem fallback_scaling_witness :
    uses_fallback envFallback150 = true ∧
    verify_user_balance envFallback150 cfgOne = true := by
  refine ⟨by decide, ?_⟩
  have h := (fallback_scaling envFallback150 cfgOne (by decide)).2.2 150 2 rfl
    (by decide) rfl
  rw [h]
  exact decide_eq_true (by norm_num [cfgOne])

/-- Witness for C10 at a concrete fallback run. -/
theorem fallback_chain_pinned_witness :
    (verify_fallback_request envFallback150 cfgOne "0xwallet").map
        (fun p => p.1.chainid) = some 1 ∧
    (verify_fallback_request envFallback150 cfgOne "0xwallet").map
        (fun p => p.2.chain) = some (resolve_chain cfgOne.chain_id) :=
  fallback_chain_pinned envFallback150 cfgOne "0xwallet" (by decide)

/-! ## Periodic reverification (`verify_cron.py`)

`verify_all_members` is embedded as a fold over a group's member list.
The call `await verify_user_balance(group_config, user_address)` is
abstracted by the boolean oracle `balance_ok` (the claims about the
scheduler quantify over stubbed verifier outcomes), and the
`ban_chat_member`/`unban_chat_member` pair — the remove-member
capability — by the oracle `remove_ok` telling whether the platform
action succeeds.  Every invocation of the capability is recorded in
`removals`, and every `save_json_file(USER_DATA_PATH, ...)` call records
the saved snapshot in `saves`. -/

/-- One member's record inside `user_data.json`. -/
structure UserInfo where
  address : String
  verified : Bool
  last_verified : Option Nat
  verification_tx : Bool
deriving Repr, DecidableEq

abbrev UserData := List (String × List (Nat × UserInfo))

/-- Embedding of `is_owner(user_id)`: comparison against the `ADMIN_USER_ID`
environment value, here an explicit parameter. -/
def is_owner (admin_user_id user_id : Nat) : Bool :=
  user_id == admin_user_id

/-- Nested lookup `user_data[group_id][user_id]`. -/
def lookupUser (d : UserData) (g : String) (u : Nat) : Option UserInfo :=
  (lookupKey d g).bind (fun users => lookupKey users u)

/-- The nested mutation `user_data[group_id][user_id]["verified"] = b`. -/
def setUserVerified (d : UserData) (g : String) (u : Nat) (b : Bool) : UserData :=
  match lookupKey d g with
  | none => d
  | some users =>
      match lookupKey users u with
      | none => d
      | some info => setKey d g (setKey users u { info with verified := b })

/-- The external dependencies of one scheduler pass. -/
structure CronEnv where
  admin_user_id : Nat
  balance_ok : GroupConfig → String → Bool
  remove_ok : String → Nat → Bool

/-- The observable state threaded through `verify_all_members`. -/
structure PassState where
  user_data : UserData
  removals : List (String × Nat)
  saves : List UserData
  verified_count : Nat
  removed_count : Nat
  error_count : Nat
deriving Repr, DecidableEq

/-- The loop body of `verify_all_members` for one `(user_id, user_info)`
pair: skip the owner; for a verified member run the balance check; on
non-compliance invoke the remove capability and, if the platform action
succeeds, flip `verified` to false and save the member document
immediately. -/
def verifyMemberStep (env : CronEnv) (group_id : String) (cfg : GroupConfig)
    (st : PassState) (member : Nat × UserInfo) : PassState :=
  if is_owner env.admin_user_id member.1 then st
  else if member.2.verified then
    if env.balance_ok cfg member.2.address then
      { st with verified_count := st.verified_count + 1 }
    else
      if env.remove_ok group_id member.1 then
        let d := setUserVerified st.user_data group_id member.1 false
        { st with
          user_data := d
          removals := st.removals ++ [(group_id, member.1)]
          saves := st.saves ++ [d]
          removed_count := st.removed_count + 1 }
      else
        { st with
          removals := st.removals ++ [(group_id, member.1)]
          error_count := st.error_count + 1 }
  else st

/-- Embedding of `verify_all_members(bot, group_id, group_config)`: fold the loop
body over the group's member list. -/
def verify_all_members (env : CronEnv) (user_data : UserData)
    (group_id : String) (cfg : GroupConfig) : PassState :=
  ((lookupKey user_data group_id).getD []).foldl
    (verifyMemberStep env group_id cfg)
    { user_data := user_data, removals := [], saves := [],
      verified_count := 0, removed_count := 0, error_count := 0 }

/-- The aggregate outcome of one `periodic_verification` cycle. -/
structure CycleResult where
  user_data : UserData
  removals : List (String × Nat)
  saves : List UserData
deriving Repr, DecidableEq

/-- One group's turn inside the `periodic_verification` loop. -/
def cycleStep (env : CronEnv) (acc : CycleResult)
    (gc : String × GroupConfig) : CycleResult :=
  let st := verify_all_members env acc.user_data gc.1 gc.2
  { user_data := st.user_data,
    removals := acc.removals ++ st.removals,
    saves := acc.saves ++ st.saves }

/-- Embedding of `periodic_verification()`: run `verify_all_members` for each
configured group in order, each group observing the member state the
previous groups persisted. -/
def periodic_verification (env : CronEnv) (config : List (String × GroupConfig))
    (user_data : UserData) : CycleResult :=
  config.foldl (cycleStep env)
    { user_data := user_data, removals := [], saves := [] }

/-- The condition under which the loop body invokes the remove-member
capability for a member. -/
def removeCond (env : CronEnv) (cfg : GroupConfig) (member : Nat × UserInfo) :
    Bool :=
  !is_owner env.admin_user_id member.1 && member.2.verified &&
    !env.balance_ok cfg member.2.address

/-- The remove-member invocations emitted while folding over a member
list. -/
def removalLog (env : CronEnv) (g : String) (cfg : GroupConfig) :
    List (Nat × UserInfo) → List (String × Nat)
  | [] => []
  | m :: rest =>
      (if removeCond env cfg m then [(g, m.1)] else []) ++
        removalLog env g cfg rest

theorem verifyMemberStep_removals (env : CronEnv) (g : String) (cfg : GroupConfig)
    (st : PassState) (m : Nat × UserInfo) :
    (verifyMemberStep env g cfg st m).removals =
      st.removals ++ (if removeCond env cfg m then [(g, m.1)] else []) := by
  unfold verifyMemberStep removeCond
  cases h1 : is_owner env.admin_user_id m.1 <;>
    cases h2 : m.2.verified <;>
      cases h3 : env.balance_ok cfg m.2.address <;>
        cases h4 : env.remove_ok g m.1 <;>
          simp

theorem verifyMemberStep_user_data (env : CronEnv) (g : String) (cfg : GroupConfig)
    (st : PassState) (m : Nat × UserInfo) :
    (verifyMemberStep env g cfg st m).user_data =
      (if removeCond env cfg m && env.remove_ok g m.1 then
        setUserVerified st.user_data g m.1 false
      else st.user_data) := by
  unfold verifyMemberStep removeCond
  cases h1 : is_owner env.admin_user_id m.1 <;>
    cases h2 : m.2.verified <;>
      cases h3 : env.balance_ok cfg m.2.address <;>
        cases h4 : env.remove_ok g m.1 <;>
          simp

theorem verifyMemberStep_saves (env : CronEnv) (g : String) (cfg : GroupConfig)
    (st : PassState) (m : Nat × UserInfo) :
    (verifyMemberStep env g cfg st m).saves =
      st.saves ++
        (if removeCond env cfg m && env.remove_ok g m.1 then
          [setUserVerified st.user_data g m.1 false]
        else []) := by
  unfold verifyMemberStep removeCond
  cases h1 : is_owner env.admin_user_id m.1 <;>
    cases h2 : m.2.verified <;>
      cases h3 : env.balance_ok cfg m.2.address <;>
        cases h4 : env.remove_ok g m.1 <;>
          simp

theorem foldl_step_removals (env : CronEnv) (g : String) (cfg : GroupConfig)
    (l : List (Nat × UserInfo)) :
    ∀ st : PassState,
      (l.foldl (verifyMemberStep env g cfg) st).removals =
        st.removals ++ removalLog env g cfg l := by
  induction l with
  | nil => intro st; simp [removalLog]
  | cons m rest ih =>
      intro st
      simp only [List.foldl_cons, removalLog]
      rw [ih, verifyMemberStep_removals, List.append_assoc]

theorem removalLog_append (env : CronEnv) (g : String) (cfg : GroupConfig)
    (l₁ l₂ : List (Nat × UserInfo)) :
    removalLog env g cfg (l₁ ++ l₂) =
      removalLog env g cfg l₁ ++ removalLog env g cfg l₂ := by
  induction l₁ with
  | nil => rfl
  | cons m rest ih =>
      have h : removalLog env g cfg (m :: rest ++ l₂) =
          (if removeCond env cfg m then [(g, m.1)] else []) ++
            removalLog env g cfg (rest ++ l₂) := rfl
      rw [h, ih, removalLog, List.append_assoc]

theorem mem_removalLog_of (env : CronEnv) (g : String) (cfg : GroupConfig)
    (l : List (Nat × UserInfo)) (u : Nat) (info : UserInfo)
    (hmem : (u, info) ∈ l) (hcond : removeCond env cfg (u, info) = true) :
    (g, u) ∈ removalLog env g cfg l := by
  induction l with
  | nil => cases hmem
  | cons m rest ih =>
      rcases List.mem_cons.1 hmem with heq | htl
      · subst heq
        simp [removalLog, hcond]
      · simp only [removalLog]
        exact List.mem_append_right _ (ih htl)

theorem removalLog_pair (env : CronEnv) (g : String) (cfg : GroupConfig)
    (l : List (Nat × UserInfo)) (p : String × Nat)
    (hp : p ∈ removalLog env g cfg l) :
    p.1 = g ∧ is_owner env.admin_user_id p.2 = false ∧
      p.2 ∈ l.map Prod.fst := by
  induction l with
  | nil => simp [removalLog] at hp
  | cons m rest ih =>
      simp only [removalLog, List.mem_append] at hp
      rcases hp with hp | hp
      · by_cases hc : removeCond env cfg m = true
        · rw [if_pos hc] at hp
          simp only [List.mem_singleton] at hp
          subst hp
          refine ⟨rfl, ?_, by simp⟩
          unfold removeCond at hc
          cases ho : is_owner env.admin_user_id m.1
          · rfl
          · rw [ho] at hc
            simp at hc
        · rw [if_neg hc] at hp
          simp at hp
      · obtain ⟨h1, h2, h3⟩ := ih hp
        exact ⟨h1, h2, by simp [h3]⟩

theorem count_removalLog_zero (env : CronEnv) (g : String) (cfg : GroupConfig)
    (l : List (Nat × UserInfo)) (u : Nat) (hu : u ∉ l.map Prod.fst) :
    (removalLog env g cfg l).count (g, u) = 0 := by
  rw [List.count_eq_zero]
  intro hmem
  exact hu (removalLog_pair env g cfg l (g, u) hmem).2.2

theorem setUserVerified_eq_none_group (d : UserData) (g : String) (u : Nat)
    (b : Bool) (h1 : lookupKey d g = none) :
    setUserVerified d g u b = d := by
  unfold setUserVerified
  simp only [h1]

theorem setUserVerified_eq_none_user (d : UserData) (g : String) (u : Nat)
    (b : Bool) (users : List (Nat × UserInfo))
    (h1 : lookupKey d g = some users) (h2 : lookupKey users u = none) :
    setUserVerified d g u b = d := by
  unfold setUserVerified
  simp only [h1, h2]

theorem setUserVerified_eq_some (d : UserData) (g : String) (u : Nat)
    (b : Bool) (users : List (Nat × UserInfo)) (info : UserInfo)
    (h1 : lookupKey d g = some users) (h2 : lookupKey users u = some info) :
    setUserVerified d g u b =
      setKey d g (setKey users u { info with verified := b }) := by
  unfold setUserVerified
  simp only [h1, h2]

theorem setUserVerified_lookup_ne (d : UserData) (g : String) (u : Nat)
    (b : Bool) (g' : String) (u' : Nat) (hu : u' ≠ u) :
    lookupUser (setUserVerified d g u b) g' u' = lookupUser d g' u' := by
  cases h1 : lookupKey d g with
  | none => rw [setUserVerified_eq_none_group d g u b h1]
  | some users =>
      cases h2 : lookupKey users u with
      | none => rw [setUserVerified_eq_none_user d g u b users h1 h2]
      | some info =>
          rw [setUserVerified_eq_some d g u b users info h1 h2]
          unfold lookupUser
          by_cases hg : g' = g
          · subst hg
            rw [lookupKey_setKey_self, h1]
            simp only [Option.some_bind]
            exact lookupKey_setKey_ne users u u' _ hu
          · rw [lookupKey_setKey_ne d g g' _ hg]

theorem setUserVerified_lookup_self (d : UserData) (g : String) (u : Nat)
    (b : Bool) (info : UserInfo) (h : lookupUser d g u = some info) :
    lookupUser (setUserVerified d g u b) g u =
      some { info with verified := b } := by
  unfold lookupUser at h
  cases h1 : lookupKey d g with
  | none => rw [h1] at h; simp at h
  | some users =>
      rw [h1] at h
      simp only [Option.some_bind] at h
      rw [setUserVerified_eq_some d g u b users info h1 h]
      unfold lookupUser
      rw [lookupKey_setKey_self]
      simp only [Option.some_bind]
      rw [lookupKey_setKey_self]

theorem foldl_step_lookup_notmem (env : CronEnv) (g : String) (cfg : GroupConfig)
    (l : List (Nat × UserInfo)) (u : Nat) :
    u ∉ l.map Prod.fst →
    ∀ (st : PassState) (g' : String),
      lookupUser (l.foldl (verifyMemberStep env g cfg) st).user_data g' u =
        lookupUser st.user_data g' u := by
  induction l with
  | nil => intro _ st g'; rfl
  | cons m rest ih =>
      intro hu st g'
      simp only [List.map_cons, List.mem_cons] at hu
      push_neg at hu
      rw [List.foldl_cons, ih hu.2, verifyMemberStep_user_data]
      by_cases hc : (removeCond env cfg m && env.remove_ok g m.1) = true
      · rw [if_pos hc]
        exact setUserVerified_lookup_ne _ _ _ _ _ _ hu.1
      · rw [if_neg hc]

theorem foldl_step_saves_mono (env : CronEnv) (g : String) (cfg : GroupConfig)
    (l : List (Nat × UserInfo)) :
    ∀ (st : PassState) (s : UserData), s ∈ st.saves →
      s ∈ (l.foldl (verifyMemberStep env g cfg) st).saves := by
  induction l with
  | nil => intro st s hs; simpa using hs
  | cons m rest ih =>
      intro st s hs
      rw [List.foldl_cons]
      apply ih
      rw [verifyMemberStep_saves]
      exact List.mem_append_left _ hs

theorem verifyMemberStep_owner (env : CronEnv) (g : String) (cfg : GroupConfig)
    (st : PassState) (m : Nat × UserInfo) (g' : String) :
    lookupUser (verifyMemberStep env g cfg st m).user_data g'
        env.admin_user_id =
      lookupUser st.user_data g' env.admin_user_id := by
  rw [verifyMemberStep_user_data]
  by_cases hc : (removeCond env cfg m && env.remove_ok g m.1) = true
  · rw [if_pos hc]
    have h1 : removeCond env cfg m = true := (Bool.and_eq_true_iff.1 hc).1
    have h2 : is_owner env.admin_user_id m.1 = false := by
      unfold removeCond at h1
      cases ho : is_owner env.admin_user_id m.1
      · rfl
      · rw [ho] at h1
        simp at h1
    have hne : env.admin_user_id ≠ m.1 := by
      intro he
      unfold is_owner at h2
      rw [he] at h2
      simp at h2
    exact setUserVerified_lookup_ne _ _ _ _ _ _ hne
  · rw [if_neg hc]

theorem foldl_step_owner (env : CronEnv) (g : String) (cfg : GroupConfig)
    (d₀ : UserData) (l : List (Nat × UserInfo)) :
    ∀ st : PassState,
      (∀ g', lookupUser st.user_data g' env.admin_user_id =
        lookupUser d₀ g' env.admin_user_id) →
      (∀ s ∈ st.saves, ∀ g', lookupUser s g' env.admin_user_id =
        lookupUser d₀ g' env.admin_user_id) →
      (∀ g', lookupUser (l.foldl (verifyMemberStep env g cfg) st).user_data g'
          env.admin_user_id = lookupUser d₀ g' env.admin_user_id) ∧
      (∀ s ∈ (l.foldl (verifyMemberStep env g cfg) st).saves, ∀ g',
        lookupUser s g' env.admin_user_id =
          lookupUser d₀ g' env.admin_user_id) := by
  induction l with
  | nil => intro st h1 h2; exact ⟨h1, h2⟩
  | cons m rest ih =>
      intro st h1 h2
      rw [List.foldl_cons]
      apply ih
      · intro g'
        rw [verifyMemberStep_owner]
        exact h1 g'
      · intro s hs g'
        rw [verifyMemberStep_saves] at hs
        rcases List.mem_append.1 hs with hs | hs
        · exact h2 s hs g'
        · by_cases hc : (removeCond env cfg m && env.remove_ok g m.1) = true
          · rw [if_pos hc] at hs
            simp only [List.mem_singleton] at hs
            subst hs
            have hstep := verifyMemberStep_owner env g cfg st m g'
            rw [verifyMemberStep_user_data, if_pos hc] at hstep
            rw [hstep]
            exact h1 g'
          · rw [if_neg hc] at hs
            simp at hs

theorem verifyMemberStep_compliant (env : CronEnv) (g : String)
    (cfg : GroupConfig) (st : PassState) (m : Nat × UserInfo)
    (hbal : env.balance_ok cfg m.2.address = true) :
    (verifyMemberStep env g cfg st m).user_data = st.user_data ∧
    (verifyMemberStep env g cfg st m).saves = st.saves := by
  unfold verifyMemberStep
  cases h1 : is_owner env.admin_user_id m.1 <;> cases h2 : m.2.verified <;>
    simp [hbal]

theorem verify_all_members_removals (env : CronEnv) (d : UserData) (g : String)
    (cfg : GroupConfig) :
    (verify_all_members env d g cfg).removals =
      removalLog env g cfg ((lookupKey d g).getD []) := by
  unfold verify_all_members
  rw [foldl_step_removals]
  rfl

theorem verify_all_members_owner_not_removed (env : CronEnv) (d : UserData)
    (g : String) (cfg : GroupConfig) :
    ∀ p ∈ (verify_all_members env d g cfg).removals,
      p.2 ≠ env.admin_user_id := by
  intro p hp
  rw [verify_all_members_removals] at hp
  have h := (removalLog_pair env g cfg _ p hp).2.1
  intro he
  unfold is_owner at h
  rw [he] at h
  simp at h

theorem verify_all_members_owner_preserved (env : CronEnv) (d : UserData)
    (g : String) (cfg : GroupConfig) :
    (∀ g', lookupUser (verify_all_members env d g cfg).user_data g'
        env.admin_user_id = lookupUser d g' env.admin_user_id) ∧
    (∀ s ∈ (verify_all_members env d g cfg).saves, ∀ g',
      lookupUser s g' env.admin_user_id =
        lookupUser d g' env.admin_user_id) := by
  unfold verify_all_members
  exact foldl_step_owner env g cfg d _ _ (fun g' => rfl)
    (fun s hs => ((List.not_mem_nil s) hs).elim)

theorem cycle_foldl_owner (env : CronEnv) (config : List (String × GroupConfig))
    (d₀ : UserData) :
    ∀ acc : CycleResult,
      (∀ p ∈ acc.removals, p.2 ≠ env.admin_user_id) →
      (∀ g', lookupUser acc.user_data g' env.admin_user_id =
        lookupUser d₀ g' env.admin_user_id) →
      (∀ s ∈ acc.saves, ∀ g', lookupUser s g' env.admin_user_id =
        lookupUser d₀ g' env.admin_user_id) →
      (∀ p ∈ (config.foldl (cycleStep env) acc).removals,
        p.2 ≠ env.admin_user_id) ∧
      (∀ g', lookupUser (config.foldl (cycleStep env) acc).user_data g'
          env.admin_user_id = lookupUser d₀ g' env.admin_user_id) ∧
      (∀ s ∈ (config.foldl (cycleStep env) acc).saves, ∀ g',
        lookupUser s g' env.admin_user_id =
          lookupUser d₀ g' env.admin_user_id) := by
  induction config with
  | nil => intro acc h1 h2 h3; exact ⟨h1, h2, h3⟩
  | cons gc rest ih =>
      intro acc h1 h2 h3
      rw [List.foldl_cons]
      apply ih
      · intro p hp
        simp only [cycleStep] at hp
        rcases List.mem_append.1 hp with hp | hp
        · exact h1 p hp
        · exact verify_all_members_owner_not_removed env acc.user_data gc.1 gc.2
            p hp
      · intro g'
        simp only [cycleStep]
        rw [(verify_all_members_owner_preserved env acc.user_data gc.1 gc.2).1 g']
        exact h2 g'
      · intro s hs g'
        simp only [cycleStep] at hs
        rcases List.mem_append.1 hs with hs | hs
        · exact h3 s hs g'
        · rw [(verify_all_members_owner_preserved env acc.user_data gc.1 gc.2).2
            s hs g']
          exact h2 g'

/-- Claim C9. In every scheduler cycle the designated owner identity is
exempt: no remove-member invocation ever targets the owner, and the
owner's member record is unchanged in the final member document and in
every persisted snapshot, regardless of the stored `verified` flag or
any balance outcome. -/
theorem owner_exempt (env : CronEnv) (config : List (String × GroupConfig))
    (d : UserData) :
    (∀ p ∈ (periodic_verification env config d).removals,
      p.2 ≠ env.admin_user_id) ∧
    (∀ g', lookupUser (periodic_verification env config d).user_data g'
        env.admin_user_id = lookupUser d g' env.admin_user_id) ∧
    (∀ s ∈ (periodic_verification env config d).saves, ∀ g',
      lookupUser s g' env.admin_user_id =
        lookupUser d g' env.admin_user_id) := by
  unfold periodic_verification
  exact cycle_foldl_owner env config d _
    (fun p hp => ((List.not_mem_nil p) hp).elim)
    (fun g' => rfl)
    (fun s hs => ((List.not_mem_nil s) hs).elim)

/-- Claim C5. In one pass over a group: a verified, non-owner member whose
balance check resolves non-compliant and whose platform removal succeeds
is passed to the remove-member capability exactly once, ends with
`verified = false` in the member document, and a snapshot containing
that flip is persisted; the save appended by the member's own step is
exactly the post-update document (per member, not batched); and a member
whose check resolves compliant causes no write at its step (neither the
member document nor the saves change). -/
theorem noncompliant_member_removed_once (env : CronEnv) (d : UserData)
    (g : String) (cfg : GroupConfig) (users : List (Nat × UserInfo))
    (husers : lookupKey d g = some users)
    (hnodup : (users.map Prod.fst).Nodup)
    (u : Nat) (info : UserInfo) (hmem : (u, info) ∈ users)
    (howner : is_owner env.admin_user_id u = false)
    (hver : info.verified = true)
    (hbal : env.balance_ok cfg info.address = false)
    (hrem : env.remove_ok g u = true) :
    (verify_all_members env d g cfg).removals.count (g, u) = 1 ∧
    lookupUser (verify_all_members env d g cfg).user_data g u =
      some { info with verified := false } ∧
    (∃ s ∈ (verify_all_members env d g cfg).saves,
      lookupUser s g u = some { info with verified := false }) ∧
    (∀ (st : PassState) (m : Nat × UserInfo),
      env.balance_ok cfg m.2.address = true →
      (verifyMemberStep env g cfg st m).user_data = st.user_data ∧
      (verifyMemberStep env g cfg st m).saves = st.saves) ∧
    (∀ st : PassState,
      (verifyMemberStep env g cfg st (u, info)).saves =
        st.saves ++ [(verifyMemberStep env g cfg st (u, info)).user_data]) := by
  have hcond : removeCond env cfg (u, info) = true := by
    unfold removeCond
    simp [howner, hver, hbal]
  have hcr : (removeCond env cfg (u, info) && env.remove_ok g (u, info).1) =
      true := by
    simp [hcond, hrem]
  obtain ⟨s, t, hsplit⟩ := List.append_of_mem hmem
  subst hsplit
  have hkeys : (s.map Prod.fst ++ u :: t.map Prod.fst).Nodup := by
    simpa using hnodup
  rw [List.nodup_append] at hkeys
  obtain ⟨hns, hnt, hdisj⟩ := hkeys
  have hut : u ∉ t.map Prod.fst := (List.nodup_cons.1 hnt).1
  have hus : u ∉ s.map Prod.fst := fun hu => hdisj hu (List.mem_cons_self u _)
  have hlookup_init : lookupUser d g u = some info := by
    unfold lookupUser
    rw [husers]
    simp only [Option.some_bind]
    exact lookupKey_eq_of_mem_nodup _ u info hmem hnodup
  have hmembers : (lookupKey d g).getD ([] : List (Nat × UserInfo)) =
      s ++ (u, info) :: t := by
    rw [husers]
    rfl
  have hva : verify_all_members env d g cfg =
      (s ++ (u, info) :: t).foldl (verifyMemberStep env g cfg)
        { user_data := d, removals := [], saves := [],
          verified_count := 0, removed_count := 0, error_count := 0 } := by
    unfold verify_all_members
    rw [hmembers]
  have hfold : (s ++ (u, info) :: t).foldl (verifyMemberStep env g cfg)
        { user_data := d, removals := [], saves := [],
          verified_count := 0, removed_count := 0, error_count := 0 } =
      t.foldl (verifyMemberStep env g cfg)
        (verifyMemberStep env g cfg
          (s.foldl (verifyMemberStep env g cfg)
            { user_data := d, removals := [], saves := [],
              verified_count := 0, removed_count := 0, error_count := 0 })
          (u, info)) := by
    rw [List.foldl_append, List.foldl_cons]
  have h1s : lookupUser ((s.foldl (verifyMemberStep env g cfg)
        { user_data := d, removals := [], saves := [],
          verified_count := 0, removed_count := 0,
          error_count := 0 })).user_data g u = some info := by
    rw [foldl_step_lookup_notmem env g cfg s u hus _ g]
    exact hlookup_init
  have hstep_data : (verifyMemberStep env g cfg
        (s.foldl (verifyMemberStep env g cfg)
          { user_data := d, removals := [], saves := [],
            verified_count := 0, removed_count := 0, error_count := 0 })
        (u, info)).user_data =
      setUserVerified ((s.foldl (verifyMemberStep env g cfg)
        { user_data := d, removals := [], saves := [],
          verified_count := 0, removed_count := 0,
          error_count := 0 })).user_data g u false := by
    rw [verifyMemberStep_user_data, if_pos hcr]
  have hstep_lookup : lookupUser (verifyMemberStep env g cfg
        (s.foldl (verifyMemberStep env g cfg)
          { user_data := d, removals := [], saves := [],
            verified_count := 0, removed_count := 0, error_count := 0 })
        (u, info)).user_data g u = some { info with verified := false } := by
    rw [hstep_data]
    exact setUserVerified_lookup_self _ g u false info h1s
  refine ⟨?_, ?_, ?_, ?_, ?_⟩
  · rw [verify_all_members_removals, hmembers, removalLog_append,
      List.count_append, count_removalLog_zero env g cfg s u hus]
    have hhead : removalLog env g cfg ((u, info) :: t) =
        [(g, u)] ++ removalLog env g cfg t := by
      have h : removalLog env g cfg ((u, info) :: t) =
          (if removeCond env cfg (u, info) then [(g, (u, info).1)] else []) ++
            removalLog env g cfg t := rfl
      rw [h, if_pos hcond]
    rw [hhead, List.count_append, count_removalLog_zero env g cfg t u hut]
    simp
  · rw [hva, hfold, foldl_step_lookup_notmem env g cfg t u hut _ g]
    exact hstep_lookup
  · refine ⟨(verifyMemberStep env g cfg
        (s.foldl (verifyMemberStep env g cfg)
          { user_data := d, removals := [], saves := [],
            verified_count := 0, removed_count := 0, error_count := 0 })
        (u, info)).user_data, ?_, hstep_lookup⟩
    rw [hva, hfold]
    apply foldl_step_saves_mono
    rw [verifyMemberStep_saves, if_pos hcr]
    apply List.mem_append_right
    rw [hstep_data]
    exact List.mem_singleton.2 rfl
  · intro st m hbal'
    exact verifyMemberStep_compliant env g cfg st m hbal'
  · intro st
    rw [verifyMemberStep_saves, verifyMemberStep_user_data, if_pos hcr,
      if_pos hcr]

/-- Claim C3 (amended). The reverification pass does not consult the
rejected-groups document: even for a group whose record is blocked, a
verified non-owner member whose balance check resolves non-compliant is
still passed to the remove-member capability.  Blocking gates only the
interactive handlers; the scheduler enforces regardless of block state. -/
theorem blocked_group_still_enforced (rd : RejDoc) (g : String)
    (_hblocked : is_group_blocked rd g = true) (env : CronEnv)
    (cfg : GroupConfig) (d : UserData) (u : Nat) (info : UserInfo)
    (hmem : (u, info) ∈ (lookupKey d g).getD [])
    (howner : is_owner env.admin_user_id u = false)
    (hver : info.verified = true)
    (hbal : env.balance_ok cfg info.address = false) :
    (g, u) ∈ (verify_all_members env d g cfg).removals := by
  rw [verify_all_members_removals]
  apply mem_removalLog_of env g cfg _ u info hmem
  unfold removeCond
  simp [howner, hver, hbal]

/-- A one-group rejected-groups document in which the group is blocked. -/
def rdBlocked : RejDoc :=
  [("g1", { rejection_count := 3, group_name := "G1", last_admin_id := some 9,
            last_admin_name := "A", first_rejection := 0, last_rejection := 2,
            blocked := true })]

/-- A cron environment whose balance oracle always reports
non-compliance and whose platform removals succeed; owner id 1. -/
def envStrict : CronEnv :=
  { admin_user_id := 1,
    balance_ok := fun _ _ => false,
    remove_ok := fun _ _ => true }

/-- The stored record of member 42. -/
def infoMember42 : UserInfo :=
  { address := "0xabc", verified := true, last_verified := some 5,
    verification_tx := true }

/-- A member document: group `"g1"` with the single verified member 42. -/
def dOneMember : UserData := [("g1", [(42, infoMember42)])]

/-- Claim C3 counterexample. A blocked group's verified member is still
removed and its record mutated by the reverification pass: the scheduler
never reads the blocked flag. -/
theorem blocked_group_enforced_cex :
    is_group_blocked rdBlocked "g1" = true ∧
    ("g1", 42) ∈
      (verify_all_members envStrict dOneMember "g1" cfgThousand).removals ∧
    lookupUser
        (verify_all_members envStrict dOneMember "g1" cfgThousand).user_data
        "g1" 42 ≠ lookupUser dOneMember "g1" 42 := by
  refine ⟨rfl, by decide, by decide⟩

/-- Witness for the amended C3 at the same concrete blocked group. -/
theorem blocked_group_still_enforced_witness :
    is_group_blocked rdBlocked "g1" = true ∧
    ("g1", 7) ∈
      (verify_all_members envStrict [("g1", [(7, infoMember42)])] "g1"
        cfgThousand).removals :=
  ⟨rfl, blocked_group_still_enforced rdBlocked "g1" rfl envStrict cfgThousand
    [("g1", [(7, infoMember42)])] 7 infoMember42 (by decide) rfl rfl rfl⟩

/-- Witness for C5 at the same concrete group: member 42 is counted
exactly once among removals and ends unverified. -/
theorem noncompliant_member_removed_once_witness :
    (verify_all_members envStrict dOneMember "g1"
        cfgThousand).removals.count ("g1", 42) = 1 ∧
    lookupUser
        (verify_all_members envStrict dOneMember "g1" cfgThousand).user_data
        "g1" 42 = some { infoMember42 with verified := false } := by
  have h := noncompliant_member_removed_once envStrict dOneMember "g1"
    cfgThousand [(42, infoMember42)] rfl (by decide) 42 infoMember42
    (by decide) rfl rfl rfl rfl
  exact ⟨h.1, h.2.1⟩

/-- Witness for C9: in a cycle that does remove member 42, no removal
targets the owner (id 1) and the owner's record is untouched. -/
theorem owner_exempt_witness :
    ("g1", 42) ∈
      (periodic_verification envStrict [("g1", cfgThousand)]
        dOneMember).removals ∧
    (42 : Nat) ≠ envStrict.admin_user_id ∧
    lookupUser
        (periodic_verification envStrict [("g1", cfgThousand)]
          dOneMember).user_data "g1" envStrict.admin_user_id =
      lookupUser dOneMember "g1" envStrict.admin_user_id := by
  refine ⟨by decide, ?_, ?_⟩
  · exact (owner_exempt envStrict [("g1", cfgThousand)] dOneMember).1
      ("g1", 42) (by decide)
  · exact (owner_exempt envStrict [("g1", cfgThousand)] dOneMember).2.1 "g1"

/-! ## Persistent store (`load_json_file` / `save_json_file`)

The file backend is embedded with an explicit filesystem state: what a
read of each path yields (missing file, unparsable content, or parsed
content) and whether a write to each path succeeds.  The database
backend (`database_simple.py`) is not part of the sources and is
modelled from the spec with the same observable shape. -/

/-- What reading one resource yields: the resource does not exist, it
exists but cannot be parsed, or it parses to a document. -/
inductive ReadResult (α : Type) where
  | missing
  | unparsable
  | content (doc : α)
deriving Repr, DecidableEq

/-- The store state one `load_json_file` / `save_json_file` call
observes: the `DATABASE_URL` switch, the database rows and the
filesystem contents, and each backend's write outcomes. -/
structure StoreEnv (α : Type) where
  database_url : Option String
  db_read : String → ReadResult α
  db_write_ok : String → Bool
  file_read : String → ReadResult α
  file_write_ok : String → Bool

/-- Modelled from the spec: `database_simple.load_json_file` (the
transactional backend, not under `src/`), which per §4.1 never fails
and returns an empty mapping when the row is absent or unparsable. -/
def db_load_json_file {σ : Type} (env : StoreEnv (List σ))
    (file_path : String) : List σ :=
  match env.db_read file_path with
  | ReadResult.missing => []
  | ReadResult.unparsable => []
  | ReadResult.content d => d

/-- Modelled from the spec: `database_simple.save_json_file` (the
transactional backend, not under `src/`), which per §4.1 returns false
on any write failure and never raises. -/
def db_save_json_file {σ : Type} (env : StoreEnv (List σ))
    (file_path : String) (_data : List σ) : Bool :=
  env.db_write_ok file_path

/-- Embedding of `load_json_file(file_path)` from `verification.py`: delegate to the
database backend when `DATABASE_URL` is set; otherwise read the file,
returning `{}` when it does not exist or raises during parsing. -/
def load_json_file {σ : Type} (env : StoreEnv (List σ))
    (file_path : String) : List σ :=
  if env.database_url.isSome then db_load_json_file env file_path
  else
    match env.file_read file_path with
    | ReadResult.missing => []
    | ReadResult.unparsable => []
    | ReadResult.content d => d

/-- Embedding of `save_json_file(file_path, data)` from `verification.py`: delegate
to the database backend when `DATABASE_URL` is set; otherwise report
whether the file write succeeded. -/
def save_json_file {σ : Type} (env : StoreEnv (List σ))
    (file_path : String) (data : List σ) : Bool :=
  if env.database_url.isSome then db_save_json_file env file_path data
  else env.file_write_ok file_path

/-- The read outcome of the backend selected by `DATABASE_URL`. -/
def selected_read {σ : Type} (env : StoreEnv (List σ))
    (file_path : String) : ReadResult (List σ) :=
  if env.database_url.isSome then env.db_read file_path
  else env.file_read file_path

/-- The write outcome of the backend selected by `DATABASE_URL`. -/
def selected_write_ok {σ : Type} (env : StoreEnv (List σ))
    (file_path : String) : Bool :=
  if env.database_url.isSome then env.db_write_ok file_path
  else env.file_write_ok file_path

/-- Claim C8. For every resource name, `load_json_file` is total and
returns the empty mapping when the resource is missing or unparsable
(and the stored document otherwise), and `save_json_file` is total and
returns exactly the write outcome: `false` on any write failure, `true`
on success — in whichever backend `DATABASE_URL` selects. -/
theorem store_error_contract {σ : Type} (env : StoreEnv (List σ))
    (name : String) (data : List σ) :
    (selected_read env name = ReadResult.missing →
      load_json_file env name = []) ∧
    (selected_read env name = ReadResult.unparsable →
      load_json_file env name = []) ∧
    (∀ d : List σ, selected_read env name = ReadResult.content d →
      load_json_file env name = d) ∧
    save_json_file env name data = selected_write_ok env name := by
  unfold selected_read selected_write_ok load_json_file save_json_file
    db_load_json_file db_save_json_file
  cases hdb : env.database_url.isSome
  · simp only [Bool.false_eq_true, if_false]
    refine ⟨?_, ?_, ?_, ?_⟩
    · intro h
      rw [h]
    · intro h
      rw [h]
    · intro d h
      rw [h]
    · trivial
  · simp only [if_true]
    refine ⟨?_, ?_, ?_, ?_⟩
    · intro h
      rw [h]
    · intro h
      rw [h]
    · intro d h
      rw [h]
    · trivial

/-- A store state with no database, a missing file and failing writes. -/
def storeEnvMissing : StoreEnv (List Nat) :=
  { database_url := none,
    db_read := fun _ => ReadResult.missing,
    db_write_ok := fun _ => false,
    file_read := fun _ => ReadResult.missing,
    file_write_ok := fun _ => false }

/-- Witness for C8: a missing file loads as the empty mapping and a
failing write reports `false`. -/
theorem store_error_contract_witness :
    load_json_file storeEnvMissing "config.json" = [] ∧
    save_json_file storeEnvMissing "config.json" [3] = false := by
  have h := store_error_contract storeEnvMissing "config.json" [3]
  exact ⟨h.1 rfl, h.2.2.2⟩
